import Mathlib

/-!
Shallow embedding of the `storage` package of krishnaindani/gidari: the
storage resolver (`Scheme`, `New`), the Mongo adapter (`Close`, `Read`,
`Upsert`, `ExecTx`) and the transaction worker started by `StartTx`.

Modelling conventions:
* Machine state touched by the backend session is an abstract type `σ`;
  a deferred operation sent on the transaction channel (`tx.Ch`, of Go
  type `func(context.Context) error`) is modelled as `σ → Except E σ`.
* A Go channel of booleans with capacity 1 is modelled by the list of
  values that are ever sent on it, in send order; a receive takes the
  head, and blocks when the list is empty (the channels are never closed
  in the source).  The unbuffered channel `tx.Ch` is modelled by the
  FIFO list of operations that are sent on it before it is closed, which
  is the order in which `range tx.Ch` yields them.
* Network connection establishment and URI parsing are external
  collaborators; their outcomes are parameters (`Option E` failure
  results) of the embedded functions.
-/

namespace Gidari

/-! ##  Storage resolver (`storage.go`) -/

/-- MongoType is the byte representation of a mongo database. -/
def MongoType : Nat := 0

/-- PostgresType is the byte representation of a postgres database. -/
def PostgresType : Nat := 1

/-- Scheme takes a byte and returns the associated DNS root database
resource, embedding the `switch` in `Scheme`. -/
def Scheme (t : Nat) : String :=
  if t = MongoType then "mongodb"
  else if t = PostgresType then "postgresql"
  else "unknown"

/-- Boolean test that `p` starts the list `s`, used to build the
substring test below. -/
def listStartsWith : List Char → List Char → Bool
  | [], _ => true
  | _ :: _, [] => false
  | a :: as, b :: bs => a = b && listStartsWith as bs

/-- Boolean test that `p` occurs contiguously inside `s`. -/
def listContainsSeq (p : List Char) : List Char → Bool
  | [] => listStartsWith p []
  | c :: rest => listStartsWith p (c :: rest) || listContainsSeq p rest

/-- Embedding of Go `strings.Contains dns sub`: `sub` occurs somewhere
inside `dns`. -/
def strContains (dns sub : String) : Bool :=
  listContainsSeq sub.toList dns.toList

/-- Boolean test that the string `p` starts the string `s`; used to talk
about the scheme of a connection descriptor. -/
def strStartsWith (s p : String) : Bool :=
  listStartsWith p.toList s.toList

/-- The two backend adapters the resolver can construct. -/
inductive Backend
  | mongo
  | postgres
  deriving DecidableEq, Repr

/-- Embeds the `Type()` method of each adapter: the Mongo adapter returns
`MongoType`, the Postgres one `PostgresType`. -/
def storageType : Backend → Nat
  | .mongo => MongoType
  | .postgres => PostgresType

/-- New will attempt to return a generic storage object given a DNS.
Embeds `New`: `strings.Contains(dns, Scheme(MongoType))` selects the
Mongo adapter, else `strings.Contains(dns, Scheme(PostgresType))` the
Postgres one, else the resolution error is returned.  Construction of
the chosen adapter (the network connection) is abstracted away; the
value returned records which adapter was constructed. -/
def New (dns : String) : Except String Backend :=
  if strContains dns (Scheme MongoType) then Except.ok Backend.mongo
  else if strContains dns (Scheme PostgresType) then Except.ok Backend.postgres
  else Except.error ("databse for dns \"" ++ dns ++ "\" is not supported")

/-! ##  The transaction worker of `StartTx` -/

/-- A deferred operation submitted to the transaction: it acts on the
session state and may fail. -/
abbrev TxOp (σ E : Type) : Type := σ → Except E σ

/-- Embeds the Active loop `for fn := range tx.Ch { if err := fn(sctx);
err != nil { return err } }`: execute the received operations one at a
time in FIFO order, stopping at the first error. -/
def txLoop : List (TxOp σ E) → σ → Except E σ
  | [], s => Except.ok s
  | fn :: rest, s =>
    match fn s with
    | Except.error e => Except.error e
    | Except.ok s' => txLoop rest s'

/-- Number of operations the Active loop actually runs (a failing
operation did run; everything after it did not). -/
def txExecCount : List (TxOp σ E) → σ → Nat
  | [], _ => 0
  | fn :: rest, s =>
    match fn s with
    | Except.error _ => 1
    | Except.ok s' => txExecCount rest s' + 1

/-- Observable scheduling events of the Active loop: operation `i`
starts executing, operation `i` finishes executing. -/
inductive Ev
  | beg (i : Nat)
  | fin (i : Nat)
  deriving DecidableEq, Repr

/-- Event trace of the Active loop, with `i` the index of the next
operation: each received operation begins, runs to completion, and only
then is the next one received. -/
def txLoopTraceAux : List (TxOp σ E) → σ → Nat → List Ev
  | [], _, _ => []
  | fn :: rest, s, i =>
    match fn s with
    | Except.error _ => [Ev.beg i, Ev.fin i]
    | Except.ok s' => Ev.beg i :: Ev.fin i :: txLoopTraceAux rest s' (i + 1)

/-- Event trace of the Active loop starting at index 0. -/
def txLoopTrace (ops : List (TxOp σ E)) (s : σ) : List Ev :=
  txLoopTraceAux ops s 0

/-- The fully serial schedule of `k` operations starting at index `i`:
operation `i` begins and finishes before operation `i+1` begins. -/
def serialTrace (i : Nat) : Nat → List Ev
  | 0 => []
  | k + 1 => Ev.beg i :: Ev.fin i :: serialTrace (i + 1) k

/-- Result of the worker task started by `StartTx`. -/
inductive WorkerResult (E : Type)
  | ok
  | err (e : E)
  | stuck
  deriving DecidableEq, Repr

/-- Everything observable about one run of the worker task. -/
structure WorkerRun (E : Type) where
  res : WorkerResult E
  commitInvoked : Bool
  abortInvoked : Bool
  doneFired : Bool
  executed : Nat
  deriving DecidableEq, Repr

/-- Embeds the goroutine body of `StartTx` (the function passed to
`tx.Errs.Go`): start the backend transaction; drain `tx.Ch` with
`txLoop`, returning the first error; then run the terminal `switch`,
which is a Go switch statement, not a select: it first receives from
`tx.commit`, and only if that value is `false` does it receive from
`tx.rollback`; a receive on an empty channel blocks (`stuck`).  On the
paths that fall out of the switch without returning an error, `tx.done
<- true` fires. -/
def runWorker (startErr : Option E) (commitErr : Option E)
    (ops : List (TxOp σ E)) (commitCh rollbackCh : List Bool) (s : σ) :
    WorkerRun E :=
  match startErr with
  | some e => ⟨WorkerResult.err e, false, false, false, 0⟩
  | none =>
    match txLoop ops s with
    | Except.error e => ⟨WorkerResult.err e, false, false, false, txExecCount ops s⟩
    | Except.ok _ =>
      match commitCh.head? with
      | none => ⟨WorkerResult.stuck, false, false, false, txExecCount ops s⟩
      | some true =>
        match commitErr with
        | some e => ⟨WorkerResult.err e, true, false, false, txExecCount ops s⟩
        | none => ⟨WorkerResult.ok, true, false, true, txExecCount ops s⟩
      | some false =>
        match rollbackCh.head? with
        | none => ⟨WorkerResult.stuck, false, false, false, txExecCount ops s⟩
        | some true => ⟨WorkerResult.ok, false, true, true, txExecCount ops s⟩
        | some false => ⟨WorkerResult.ok, false, false, true, txExecCount ops s⟩

/-! ##  Work submission to a transaction -/

/-- Whether the worker goroutine of a transaction is still running. -/
inductive WorkerStatus
  | running
  | exited
  deriving DecidableEq, Repr

/-- Status of the worker after a run: it has exited when it returned
(`ok` or `err`); a `stuck` worker has not exited. -/
def txStatus (r : WorkerRun E) : WorkerStatus :=
  match r.res with
  | WorkerResult.stuck => WorkerStatus.running
  | _ => WorkerStatus.exited

/-- Modelled from the spec: the producer-side submission method of the
transaction handle (`Tx`) is not among these sources (only the worker
that consumes `tx.Ch` is).  Per the spec, submitting work after the
worker has exited "must yield a specific 'transaction already finished'
error rather than blocking forever or silently dropping the operation";
while the worker runs, the operation is appended to the FIFO queue. -/
def sendWork (st : WorkerStatus) (queued : List (TxOp σ E)) (fn : TxOp σ E) :
    Except String (List (TxOp σ E)) :=
  match st with
  | WorkerStatus.exited => Except.error "transaction already finished"
  | WorkerStatus.running => Except.ok (queued ++ [fn])

/-! ##  Mongo adapter operations -/

/-- Close embeds `func (m *Mongo) Close() { m.Close() }`: the body is a
single call to the method itself.  The argument counts available call
steps; `none` means the call has not returned within that many steps. -/
def Mongo.Close : Nat → Option Unit
  | 0 => none
  | fuel + 1 => Mongo.Close fuel

/-- A read request names a target collection (the rest of the request is
opaque at this layer). -/
structure ReadRequest where
  table : String
  deriving DecidableEq, Repr

/-- A read response carries the sequence of materialized records. -/
structure ReadResponse (ρ : Type) where
  records : List ρ
  deriving DecidableEq, Repr

/-- Read embeds `func (m *Mongo) Read(...) error`: its entire body is
commented out in the source, so it returns `nil` and leaves the response
untouched.  `db` is the list of records in the backend that match the
request; the code never consults it. -/
def Mongo.Read (db : List ρ) (req : ReadRequest) (rsp : ReadResponse ρ) :
    Except String (ReadResponse ρ) :=
  Except.ok rsp

/-- An upsert request: target collection and the records to write. -/
structure UpsertRequest (ρ : Type) where
  table : String
  records : List ρ
  deriving DecidableEq, Repr

/-- Calls the adapter issues to the backend: a single bulk write of a
list of prepared write models against a collection. -/
inductive BackendCall (δ : Type)
  | bulkWrite (table : String) (models : List δ)
  deriving DecidableEq, Repr

/-- Embeds the preparation loop of `Upsert`: each record is turned into
a write model by `tools.AssingRecordBSONDocument` (abstracted as
`prepare`); the first preparation error is returned and ends the loop. -/
def prepareModels (prepare : ρ → Except E δ) : List ρ → Except E (List δ)
  | [] => Except.ok []
  | r :: rest =>
    match prepare r with
    | Except.error e => Except.error e
    | Except.ok d =>
      match prepareModels prepare rest with
      | Except.error e => Except.error e
      | Except.ok ds => Except.ok (d :: ds)

/-- Embeds `func (m *Mongo) Upsert(...)`: prepare all records (any
preparation failure returns before any backend call), parse the
connection string (`parseDns`, abstracted), then issue one `BulkWrite`
with all the models.  The first component is the list of backend calls
issued, the second the returned error. -/
def Mongo.Upsert (prepare : ρ → Except E δ) (parseDns : Except E Unit)
    (bulkErr : Option E) (req : UpsertRequest ρ) :
    List (BackendCall δ) × Option E :=
  match prepareModels prepare req.records with
  | Except.error e => ([], some e)
  | Except.ok models =>
    match parseDns with
    | Except.error e => ([], some e)
    | Except.ok _ => ([BackendCall.bulkWrite req.table models], bulkErr)

/-- Session primitives that `ExecTx` can invoke on the mongo session. -/
inductive SessEv
  | startTransaction
  | commitTransaction
  | abortTransaction
  | endSession
  deriving DecidableEq, Repr

/-- Embeds `func (m *Mongo) ExecTx(ctx, fn)`: inside `UseSession`, start
the transaction (failure returned), run `fn` (its error returned); if
`fn` reports not-ok, abort the transaction (abort failure returned);
otherwise merely end the session.  `fnOk`/`fnErr` are the two results of
`fn`; the first component is the trace of session primitives invoked,
the second the returned error. -/
def Mongo.ExecTx (startErr : Option E) (fnOk : Bool) (fnErr : Option E)
    (abortErr : Option E) : List SessEv × Option E :=
  match startErr with
  | some e => ([SessEv.startTransaction], some e)
  | none =>
    match fnErr with
    | some e => ([SessEv.startTransaction], some e)
    | none =>
      if fnOk then ([SessEv.startTransaction, SessEv.endSession], none)
      else
        match abortErr with
        | some e => ([SessEv.startTransaction, SessEv.abortTransaction], some e)
        | none => ([SessEv.startTransaction, SessEv.abortTransaction], none)

/-! ##  Helper lemmas -/

/-- Serial replay of the submitted operations, written with the library
fold: the effect of executing them one after the other in list order. -/
def serialReplay (ops : List (TxOp σ E)) (s : σ) : Except E σ :=
  List.foldlM (fun t f => f t) s ops

theorem txLoop_append (l₁ l₂ : List (TxOp σ E)) (s : σ) :
    txLoop (l₁ ++ l₂) s =
      match txLoop l₁ s with
      | Except.error e => Except.error e
      | Except.ok s' => txLoop l₂ s' := by
  induction l₁ generalizing s with
  | nil => rfl
  | cons fn rest ih =>
    simp only [List.cons_append, txLoop]
    cases fn s with
    | error e => rfl
    | ok s' => exact ih s'

theorem txExecCount_append (l₁ l₂ : List (TxOp σ E)) (s s' : σ)
    (h : txLoop l₁ s = Except.ok s') :
    txExecCount (l₁ ++ l₂) s = l₁.length + txExecCount l₂ s' := by
  induction l₁ generalizing s with
  | nil =>
    simp only [txLoop, Except.ok.injEq] at h
    subst h
    simp [txExecCount]
  | cons fn rest ih =>
    simp only [txLoop] at h
    cases hfn : fn s with
    | error e => rw [hfn] at h; cases h
    | ok t =>
      rw [hfn] at h
      simp only [List.cons_append, txExecCount, hfn, List.append_eq, List.length_cons]
      rw [ih t h]
      omega

theorem txLoopTraceAux_serial (ops : List (TxOp σ E)) (s : σ) (i : Nat) :
    txLoopTraceAux ops s i = serialTrace i (txExecCount ops s) := by
  induction ops generalizing s i with
  | nil => rfl
  | cons fn rest ih =>
    simp only [txLoopTraceAux, txExecCount]
    cases hfn : fn s with
    | error e => rfl
    | ok s' => simp only [ih s' (i + 1), serialTrace]

theorem txLoop_eq_serialReplay (ops : List (TxOp σ E)) (s : σ) :
    txLoop ops s = serialReplay ops s := by
  induction ops generalizing s with
  | nil => rfl
  | cons fn rest ih =>
    simp only [txLoop, serialReplay, List.foldlM_cons]
    cases hfn : fn s with
    | error e => rfl
    | ok s' => exact ih s'

theorem listStartsWith_containsSeq (p s : List Char)
    (h : listStartsWith p s = true) : listContainsSeq p s = true := by
  cases s with
  | nil => exact h
  | cons c rest => simp [listContainsSeq, h]

theorem listStartsWith_append (p q s : List Char)
    (h : listStartsWith (p ++ q) s = true) : listStartsWith p s = true := by
  induction p generalizing s with
  | nil => rfl
  | cons a as ih =>
    cases s with
    | nil => cases h
    | cons b bs =>
      simp only [List.cons_append, listStartsWith, Bool.and_eq_true] at h ⊢
      exact ⟨h.1, ih bs h.2⟩

theorem prepareModels_error_of_mem (prepare : ρ → Except E δ) (l : List ρ)
    (r : ρ) (hr : r ∈ l) (e : E) (he : prepare r = Except.error e) :
    ∃ e', prepareModels prepare l = Except.error e' := by
  induction l with
  | nil => cases hr
  | cons a rest ih =>
    cases hr with
    | head => exact ⟨e, by simp [prepareModels, he]⟩
    | tail _ hmem =>
      cases ha : prepare a with
      | error e₂ => exact ⟨e₂, by simp [prepareModels, ha]⟩
      | ok d =>
        obtain ⟨e', h'⟩ := ih hmem
        exact ⟨e', by simp [prepareModels, ha, h']⟩

theorem prepareModels_length (prepare : ρ → Except E δ) (l : List ρ)
    (ms : List δ) (h : prepareModels prepare l = Except.ok ms) :
    ms.length = l.length := by
  induction l generalizing ms with
  | nil =>
    simp only [prepareModels, Except.ok.injEq] at h
    subst h
    rfl
  | cons a rest ih =>
    simp only [prepareModels] at h
    cases ha : prepare a with
    | error e => rw [ha] at h; cases h
    | ok d =>
      rw [ha] at h
      cases hrest : prepareModels prepare rest with
      | error e => rw [hrest] at h; cases h
      | ok ds =>
        rw [hrest] at h
        cases h
        simp [ih ds hrest]

/-! ##  Claim theorems -/

/-- C1: the worker of `StartTx` receives the operations submitted to the
work channel one at a time in FIFO order and runs each to completion
against the single shared session before accepting the next: its event
trace is the fully serial schedule (operation `i` finishes before
operation `i+1` begins, in submission order), and its effect on the
session is exactly the serial replay of the submitted sequence, so no
two submitted operations ever execute concurrently.  The channel yields
the operations in the single FIFO order in which the concurrent
producers' sends completed, which is consistent with each producer's own
submission order. -/
theorem startTx_fifo_serial (ops : List (TxOp σ E)) (s : σ) :
    txLoopTrace ops s = serialTrace 0 (txExecCount ops s) ∧
      txLoop ops s = serialReplay ops s :=
  ⟨txLoopTraceAux_serial ops s 0, txLoop_eq_serialReplay ops s⟩

/-- C2 counterexample: the rollback signal is sent (and the commit
signal never is); the claim says the worker honors whichever signal
arrives first and never hangs, but the worker blocks on the commit
receive: it gets stuck, never invokes the abort primitive and never
fires the completion signal. -/
theorem startTx_rollback_only_blocks :
    (runWorker none none ([] : List (TxOp Unit Unit)) [] [true] ()).res
        = WorkerResult.stuck ∧
      (runWorker none none ([] : List (TxOp Unit Unit)) [] [true] ()).abortInvoked
        = false ∧
      (runWorker none none ([] : List (TxOp Unit Unit)) [] [true] ()).doneFired
        = false := by
  decide

/-- C2 amended: the terminal `switch` of the worker is a sequential Go
switch, not a simultaneous watch: after the queue is drained the worker
first receives from the commit channel (blocking if it is empty, even
when rollback was signaled); a `true` commit value invokes the commit
primitive; a `false` commit value makes it then receive from the
rollback channel, where a `true` value invokes the abort primitive.  At
most one of the two terminal primitives is ever invoked. -/
theorem startTx_terminal_switch (commitErr : Option E) (ops : List (TxOp σ E))
    (cCh rCh : List Bool) (s : σ) :
    (¬((runWorker none commitErr ops cCh rCh s).commitInvoked = true ∧
        (runWorker none commitErr ops cCh rCh s).abortInvoked = true)) ∧
    (∀ s', txLoop ops s = Except.ok s' →
      (cCh.head? = none →
          (runWorker none commitErr ops cCh rCh s).res = WorkerResult.stuck ∧
          (runWorker none commitErr ops cCh rCh s).abortInvoked = false) ∧
      (cCh.head? = some true →
          (runWorker none commitErr ops cCh rCh s).commitInvoked = true ∧
          (runWorker none commitErr ops cCh rCh s).abortInvoked = false) ∧
      (cCh.head? = some false →
          (runWorker none commitErr ops cCh rCh s).commitInvoked = false ∧
          (rCh.head? = some true →
              (runWorker none commitErr ops cCh rCh s).abortInvoked = true) ∧
          (rCh.head? = none →
              (runWorker none commitErr ops cCh rCh s).res = WorkerResult.stuck))) := by
  constructor
  · unfold runWorker
    split
    · simp
    · split
      · simp
      · split <;> simp_all <;> split <;> simp_all
  · intro s' h
    refine ⟨?_, ?_, ?_⟩
    · intro hc
      simp [runWorker, h, hc]
    · intro hc
      cases commitErr <;> simp [runWorker, h, hc]
    · intro hc
      cases hr : rCh.head? with
      | none => simp [runWorker, h, hc, hr]
      | some b => cases b <;> simp [runWorker, h, hc, hr]

/-- C2 witness: with the queue already closed and empty, a `false` value
on the commit channel and a `true` value on the rollback channel, the
worker invokes the abort primitive. -/
theorem startTx_terminal_switch_w :
    (runWorker none none ([] : List (TxOp Unit Unit)) [false] [true] ()).abortInvoked
      = true :=
  ((((startTx_terminal_switch none [] [false] [true] ()).2 () rfl).2.2) rfl).2.1 rfl

/-- C3 counterexample: the first queued operation fails; the worker
returns that error as the transaction's terminal outcome but the
completion signal does not fire, although the claim requires it to fire
on every terminal path including in-loop failures. -/
theorem startTx_done_skipped_on_error :
    (runWorker none none [fun _ => (Except.error () : Except Unit Unit)] [true] [] ()).res
        = WorkerResult.err () ∧
      (runWorker none none [fun _ => (Except.error () : Except Unit Unit)] [true] [] ()).doneFired
        = false := by
  decide

/-- C3 amended: the completion signal fires exactly when the worker
returns `nil` — on the successful-commit path, on the rollback path
(even when the abort primitive fails, its error being discarded), and on
the path where both signals carry `false`; it does not fire on any
error-returning path (session start failure, in-loop operation failure,
or commit-primitive failure) nor when the worker blocks. -/
theorem startTx_done_iff_ok (startErr commitErr : Option E)
    (ops : List (TxOp σ E)) (cCh rCh : List Bool) (s : σ) :
    (runWorker startErr commitErr ops cCh rCh s).doneFired = true ↔
      (runWorker startErr commitErr ops cCh rCh s).res = WorkerResult.ok := by
  unfold runWorker
  split
  · simp
  · split
    · simp
    · split
      · simp
      · split <;> simp
      · split <;> simp

/-- C4: if an operation executed inside the Active loop fails, the
worker returns that error at once: every operation queued after it is
left unexecuted (only the `pre.length + 1` operations up to and
including the failing one ran), no commit or abort primitive is invoked,
the completion signal does not fire, and the outcome does not depend on
the commit/rollback channels — the worker does not wait for a signal. -/
theorem startTx_error_aborts (commitErr : Option E) (pre post : List (TxOp σ E))
    (bad : TxOp σ E) (cCh rCh : List Bool) (s s' : σ) (e : E)
    (hpre : txLoop pre s = Except.ok s') (hbad : bad s' = Except.error e) :
    runWorker none commitErr (pre ++ bad :: post) cCh rCh s =
      ⟨WorkerResult.err e, false, false, false, pre.length + 1⟩ := by
  have hl : txLoop (pre ++ bad :: post) s = Except.error e := by
    rw [txLoop_append, hpre]
    simp [txLoop, hbad]
  have hc : txExecCount (pre ++ bad :: post) s = pre.length + 1 := by
    rw [txExecCount_append pre (bad :: post) s s' hpre]
    simp [txExecCount, hbad]
  simp [runWorker, hl, hc]

/-- C4 witness: a succeeding operation, then one failing with error 7,
then another queued operation: the worker returns error 7 having
executed exactly 2 operations, with no terminal primitive invoked and no
completion signal, and with the commit channel already holding `true`. -/
theorem startTx_error_aborts_w :
    runWorker none none
        [fun _ => (Except.ok () : Except Nat Unit),
         fun _ => Except.error 7,
         fun _ => Except.ok ()] [true] [] () =
      ⟨WorkerResult.err 7, false, false, false, 2⟩ :=
  startTx_error_aborts none [fun _ => Except.ok ()] [fun _ => Except.ok ()]
    (fun _ => Except.error 7) [true] [] () () 7 rfl rfl

/-- C5: once the worker has exited (for example because an in-loop
operation failed), submitting a further work item yields the specific
"transaction already finished" error instead of blocking or silently
dropping the operation.  The submission method itself is modelled from
the spec (`sendWork`), as it is not among these sources. -/
theorem sendWork_after_exit (r : WorkerRun E)
    (h : txStatus r = WorkerStatus.exited)
    (queued : List (TxOp σ E)) (fn : TxOp σ E) :
    sendWork (txStatus r) queued fn
      = Except.error "transaction already finished" := by
  rw [h]
  rfl

/-- C5 witness: a worker whose only queued operation failed has exited;
submitting a further operation to it yields the "transaction already
finished" error. -/
theorem sendWork_after_exit_w :
    sendWork
        (txStatus (runWorker none none
          [fun _ => (Except.error 3 : Except Nat Unit)] [] [] ()))
        ([] : List (TxOp Unit Nat)) (fun _ => Except.ok ())
      = Except.error "transaction already finished" :=
  sendWork_after_exit
    (runWorker none none [fun _ => (Except.error 3 : Except Nat Unit)] [] [] ())
    rfl [] (fun _ => Except.ok ())

/-- C6 counterexample: the descriptor "redis://mongodb" has the
unrecognized scheme `redis://` (it starts with neither recognized
scheme), yet `New` constructs the Mongo adapter instead of returning a
resolution error, because matching is by substring containment. -/
theorem new_unrecognized_scheme_resolves :
    strStartsWith "redis://mongodb" "mongodb://" = false ∧
      strStartsWith "redis://mongodb" "postgresql://" = false ∧
      New "redis://mongodb" = Except.ok Backend.mongo :=
  ⟨by decide, by decide, rfl⟩

/-- C6 amended: `New` resolves by substring containment, not by scheme:
a descriptor containing "mongodb" anywhere yields the document-store
adapter (whose type is `MongoType`); otherwise one containing
"postgresql" yields the relational-store adapter (`PostgresType`);
a descriptor containing neither substring yields the resolution error.
In particular a descriptor whose scheme is `mongodb://` resolves to the
document-store adapter, and one whose scheme is `postgresql://` resolves
to the relational-store adapter provided "mongodb" does not occur
elsewhere in it. -/
theorem new_resolution (dns : String) :
    (strContains dns (Scheme MongoType) = true →
        New dns = Except.ok Backend.mongo ∧
          storageType Backend.mongo = MongoType) ∧
    (strContains dns (Scheme MongoType) = false →
        strContains dns (Scheme PostgresType) = true →
        New dns = Except.ok Backend.postgres ∧
          storageType Backend.postgres = PostgresType) ∧
    (strContains dns (Scheme MongoType) = false →
        strContains dns (Scheme PostgresType) = false →
        New dns =
          Except.error ("databse for dns \"" ++ dns ++ "\" is not supported")) ∧
    (strStartsWith dns "mongodb://" = true →
        New dns = Except.ok Backend.mongo ∧
          storageType Backend.mongo = MongoType) ∧
    (strStartsWith dns "postgresql://" = true →
        strContains dns (Scheme MongoType) = false →
        New dns = Except.ok Backend.postgres ∧
          storageType Backend.postgres = PostgresType) := by
  have hm : ("mongodb://").toList = ("mongodb").toList ++ ("://").toList := by
    decide
  have hp : ("postgresql://").toList = ("postgresql").toList ++ ("://").toList := by
    decide
  refine ⟨?_, ?_, ?_, ?_, ?_⟩
  · intro h
    exact ⟨by simp [New, h], rfl⟩
  · intro h₁ h₂
    exact ⟨by simp [New, h₁, h₂], rfl⟩
  · intro h₁ h₂
    simp [New, h₁, h₂]
  · intro h
    have hc : strContains dns (Scheme MongoType) = true := by
      apply listStartsWith_containsSeq
      apply listStartsWith_append ("mongodb").toList ("://").toList
      rw [← hm]
      exact h
    exact ⟨by simp [New, hc], rfl⟩
  · intro h h₁
    have hc : strContains dns (Scheme PostgresType) = true := by
      apply listStartsWith_containsSeq
      apply listStartsWith_append ("postgresql").toList ("://").toList
      rw [← hp]
      exact h
    exact ⟨by simp [New, h₁, hc], rfl⟩

/-- C6 witness: the descriptor "mongodb://localhost:27017" resolves to
the document-store adapter, whose type is `MongoType`. -/
theorem new_resolution_w :
    New "mongodb://localhost:27017" = Except.ok Backend.mongo ∧
      storageType Backend.mongo = MongoType :=
  (new_resolution "mongodb://localhost:27017").1 (by decide)

/-- C7: `Close` never returns: the body of the Go method is a single
call to the method itself, so for every number of available call steps
the call has still not returned — it neither terminates nor ever reaches
a disconnect of the underlying client. -/
theorem mongo_close_never_returns : ∀ fuel : Nat, Mongo.Close fuel = none := by
  intro fuel
  induction fuel with
  | zero => rfl
  | succ n ih => exact ih

/-- C8: `Read` ignores the backend entirely: whatever records match in
the backend, it returns success with the response unchanged — no record
is ever materialized and no backend failure can ever be surfaced.  In
particular, reading against a backend holding one matching record
yields an empty response. -/
theorem mongo_read_noop :
    (∀ (db : List Nat) (req : ReadRequest) (rsp : ReadResponse Nat),
        Mongo.Read db req rsp = Except.ok rsp) ∧
      Mongo.Read [42] ⟨"candles"⟩ (⟨[]⟩ : ReadResponse Nat) = Except.ok ⟨[]⟩ ∧
      ([42] : List Nat).length = 1 :=
  ⟨fun _ _ _ => rfl, rfl, rfl⟩

/-- C9: `Upsert` outside an explicit transaction is all-or-nothing at
the submission level: if preparing any record fails, no backend write at
all is issued (the list of backend calls is empty); if preparation
succeeds for all records and the connection string parses, exactly one
bulk write is issued, containing one write model per record. -/
theorem mongo_upsert_single_bulk (prepare : ρ → Except E δ)
    (parseDns : Except E Unit) (bulkErr : Option E) (req : UpsertRequest ρ) :
    ((∃ r ∈ req.records, ∃ e, prepare r = Except.error e) →
        (Mongo.Upsert prepare parseDns bulkErr req).1 = []) ∧
    (∀ ms, prepareModels prepare req.records = Except.ok ms →
        ms.length = req.records.length ∧
        (parseDns = Except.ok () →
          Mongo.Upsert prepare parseDns bulkErr req
            = ([BackendCall.bulkWrite req.table ms], bulkErr))) := by
  constructor
  · rintro ⟨r, hr, e, he⟩
    obtain ⟨e', h'⟩ := prepareModels_error_of_mem prepare req.records r hr e he
    simp [Mongo.Upsert, h']
  · intro ms hms
    refine ⟨prepareModels_length prepare req.records ms hms, ?_⟩
    intro hp
    simp [Mongo.Upsert, hms, hp]

/-- C9 witness: of the three records `[1, 0, 2]`, preparing the record
`0` fails; the upsert issues no backend call at all. -/
theorem mongo_upsert_single_bulk_w :
    (Mongo.Upsert (fun n => if n = 0 then Except.error "bad record" else Except.ok n)
        (Except.ok ()) none ⟨"candles", [1, 0, 2]⟩).1 = [] :=
  (mongo_upsert_single_bulk
      (fun n => if n = 0 then Except.error "bad record" else Except.ok n)
      (Except.ok ()) none ⟨"candles", [1, 0, 2]⟩).1
    ⟨0, by decide, "bad record", rfl⟩

/-- C10: on no path of `ExecTx` is the commit primitive invoked — when
`fn` reports ok the session is merely ended; when `fn` returns an error
that error is returned; when `fn` reports not-ok without error the abort
primitive is invoked. -/
theorem mongo_exectx_no_commit (startErr : Option E) (fnOk : Bool)
    (fnErr abortErr : Option E) :
    SessEv.commitTransaction ∉ (Mongo.ExecTx startErr fnOk fnErr abortErr).1 ∧
    (startErr = none → ∀ e, fnErr = some e →
        (Mongo.ExecTx startErr fnOk fnErr abortErr).2 = some e) ∧
    (startErr = none → fnErr = none → fnOk = false →
        SessEv.abortTransaction ∈ (Mongo.ExecTx startErr fnOk fnErr abortErr).1) := by
  refine ⟨?_, ?_, ?_⟩
  · cases startErr <;> cases fnErr <;> cases fnOk <;> cases abortErr <;>
      simp [Mongo.ExecTx]
  · intro h e he
    subst h
    subst he
    simp [Mongo.ExecTx]
  · intro h₁ h₂ h₃
    subst h₁
    subst h₂
    subst h₃
    cases abortErr <;> simp [Mongo.ExecTx]

/-- C10 witness: with the session started, `fn` reporting an error
returns that error; `fn` reporting not-ok invokes the abort primitive;
and the ok path contains no commit. -/
theorem mongo_exectx_no_commit_w :
    SessEv.commitTransaction ∉ (Mongo.ExecTx (none : Option Nat) true none none).1 ∧
      (Mongo.ExecTx (none : Option Nat) true (some 5) none).2 = some 5 ∧
      SessEv.abortTransaction ∈ (Mongo.ExecTx (none : Option Nat) false none none).1 :=
  ⟨(mongo_exectx_no_commit none true none none).1,
   (mongo_exectx_no_commit none true (some 5) none).2.1 rfl 5 rfl,
   (mongo_exectx_no_commit none false none none).2.2 rfl rfl rfl⟩

end Gidari
